import Mathlib

/-!
Verification of the core of `prettyprinter-ts`, a Wadler/Leijen-style pretty
printer written in TypeScript on top of fp-ts.

The development shallowly embeds the data model (`PageWidth`, `Doc`,
`SimpleDocStream`, `LayoutPipeline`, `FlattenResult`), the flatten analysis
(`flatten`, `changesUponFlattening`), the `group` combinator with the derived
combinators feeding `list`/`tupled`, the four layout entry points
(`layoutUnbounded`, `layoutPretty`, `layoutSmart`, `layoutCompact`) and the
string renderer `renderS`.

TypeScript `number` values used as columns, indentation and widths are
embedded as `Int` (they stay integral in the source); the `ribbonFraction`
(a float in `[0, 1]`) is embedded as `ℚ`, with `Math.floor` becoming
`Int.floor`.  A `Doc` `Char` node carries a `String` because the TypeScript
constructor `Char(char: string)` does: the one-character restriction is only
a documented invariant there, and some call sites break it.  The layout
engine's recursion goes through the reactive producers (`Column`,
`WithPageWidth`, `Nesting`), whose results are arbitrary documents, so the
TypeScript functions are not structurally terminating; they are embedded
with an explicit fuel parameter returning `Option`, `none` marking
non-termination within the given fuel.  The renderer, which throws on
`SFail`, returns `Option` as well.
-/

namespace PPrint

/-- Page width description, from `PageWidth.ts`: either the number of
characters available per line together with the ribbon fraction, or
unbounded. -/
inductive PageWidth : Type where
  | AvailablePerLine (lineWidth : Int) (ribbonFraction : ℚ)
  | Unbounded
  deriving DecidableEq

/-- Default page width `AvailablePerLine(80, 1)` from `PageWidth.ts`. -/
def defaultPageWidth : PageWidth := .AvailablePerLine 80 1

/-- `remainingWidth` from `PageWidth.ts`: the minimum of the columns left in
the line and the columns left in the ribbon, where the ribbon width is
`floor(lineLength * ribbonFraction)` clamped to `[0, lineLength]`. -/
def remainingWidth (lineLength : Int) (ribbonFraction : ℚ)
    (lineIndent currentColumn : Int) : Int :=
  let columnsLeftInLine := lineLength - currentColumn
  let ribbonWidth := max 0 (min lineLength ⌊(lineLength : ℚ) * ribbonFraction⌋)
  let columnsLeftInRibbon := lineIndent + ribbonWidth - currentColumn
  min columnsLeftInLine columnsLeftInRibbon

/-- The document algebra from `Doc.ts`: a tagged sum of 13 node kinds,
parametric in the annotation type `A`.  The reactive variants carry a
producer function invoked by the layout engine once their context is
known. -/
inductive Doc (A : Type) : Type where
  | Fail
  | Empty
  | Char (char : String)
  | Text (text : String)
  | Line
  | FlatAlt (x y : Doc A)
  | Cat (x y : Doc A)
  | Nest (indent : Int) (doc : Doc A)
  | Union (x y : Doc A)
  | Column (react : Int → Doc A)
  | WithPageWidth (react : PageWidth → Doc A)
  | Nesting (react : Int → Doc A)
  | Annotated (ann : A) (doc : Doc A)

/-- The linearised output from `SimpleDocStream.ts`: a cons-list-shaped
tagged sum of 7 node kinds. -/
inductive SimpleDocStream (A : Type) : Type where
  | SFail
  | SEmpty
  | SChar (char : String) (stream : SimpleDocStream A)
  | SText (text : String) (stream : SimpleDocStream A)
  | SLine (indent : Int) (stream : SimpleDocStream A)
  | SAnnPush (ann : A) (stream : SimpleDocStream A)
  | SAnnPop (stream : SimpleDocStream A)
  deriving DecidableEq

/-- The layout engine's work list from `Layout.ts`. -/
inductive LayoutPipeline (A : Type) : Type where
  | Nil
  | Cons (indent : Int) (document : Doc A) (pipeline : LayoutPipeline A)
  | UndoAnn (pipeline : LayoutPipeline A)

/-- Three-valued result of the flatten analysis, from `Flatten.ts`. -/
inductive FlattenResult (A : Type) : Type where
  | Flattened (value : A)
  | AlreadyFlat
  | NeverFlat
  deriving DecidableEq

/-- Functor `map` on `FlattenResult`, from `Flatten.ts`. -/
def FlattenResult.map {A B : Type} (f : A → B) : FlattenResult A → FlattenResult B
  | .Flattened a => .Flattened (f a)
  | .AlreadyFlat => .AlreadyFlat
  | .NeverFlat => .NeverFlat

/-- `flatten` from `Flatten.ts`: rewrite a document by removing all soft
alternatives, committing to the single-line form. -/
def flatten {A : Type} : Doc A → Doc A
  | .Fail => .Fail
  | .Empty => .Empty
  | .Char c => .Char c
  | .Text t => .Text t
  | .Line => .Fail
  | .FlatAlt _ y => flatten y
  | .Cat x y => .Cat (flatten x) (flatten y)
  | .Nest i x => .Nest i (flatten x)
  | .Union x _ => flatten x
  | .Column f => .Column (fun n => flatten (f n))
  | .WithPageWidth f => .WithPageWidth (fun w => flatten (f w))
  | .Nesting f => .Nesting (fun n => flatten (f n))
  | .Annotated a x => .Annotated a (flatten x)

/-- `changesUponFlattening` from `Flatten.ts`.  Note the `Nesting` case of
the source wraps the flattened producer in a `Column` node (not a
`Nesting` node); the embedding reproduces that faithfully. -/
def changesUponFlattening {A : Type} : Doc A → FlattenResult (Doc A)
  | .Empty => .AlreadyFlat
  | .Char _ => .AlreadyFlat
  | .Text _ => .AlreadyFlat
  | .Fail => .AlreadyFlat
  | .Line => .NeverFlat
  | .FlatAlt _ y => .Flattened (flatten y)
  | .Cat x y =>
    match changesUponFlattening x, changesUponFlattening y with
    | .NeverFlat, _ => .NeverFlat
    | _, .NeverFlat => .NeverFlat
    | .Flattened a, .Flattened b => .Flattened (.Cat a b)
    | .Flattened a, .AlreadyFlat => .Flattened (.Cat a y)
    | .AlreadyFlat, .Flattened b => .Flattened (.Cat x b)
    | .AlreadyFlat, .AlreadyFlat => .AlreadyFlat
  | .Nest i a => (changesUponFlattening a).map (fun b => .Nest i b)
  | .Union x _ => .Flattened x
  | .Column f => .Flattened (.Column (fun c => flatten (f c)))
  | .WithPageWidth f => .Flattened (.WithPageWidth (fun w => flatten (f w)))
  | .Nesting f => .Flattened (.Column (fun n => flatten (f n)))
  | .Annotated a x => (changesUponFlattening x).map (fun b => .Annotated a b)

/-- `group` from `Doc.ts`: dispatches on the head constructor; `FlatAlt`
consults the flatten analysis of its second component, `Union` is returned
unchanged, and every other node goes through the local `group_` helper. -/
def group {A : Type} (doc : Doc A) : Doc A :=
  let group_ : Doc A → Doc A := fun a =>
    match changesUponFlattening a with
    | .Flattened b => .Union b a
    | .AlreadyFlat => a
    | .NeverFlat => a
  match doc with
  | .FlatAlt a b =>
    match changesUponFlattening b with
    | .Flattened b_ => .Union b_ a
    | .AlreadyFlat => .Union b a
    | .NeverFlat => a
  | .Union x y => .Union x y
  | _ => group_ doc

/-- A fitting predicate, from `Layout.ts`: decides whether a stream fits
given the current line indentation, the current column, and the initial
indentation of the alternative stream when it starts with a line break. -/
def FittingPredicate (A : Type) : Type :=
  Int → Int → Option Int → SimpleDocStream A → Bool

/-- `initialIndentation` from `Layout.ts`: walks the stream past leading
annotation markers and returns the indentation of an initial `SLine`. -/
def initialIndentation {A : Type} : SimpleDocStream A → Option Int
  | .SFail => none
  | .SEmpty => none
  | .SChar _ _ => none
  | .SText _ _ => none
  | .SLine i _ => some i
  | .SAnnPush _ s => initialIndentation s
  | .SAnnPop s => initialIndentation s

/-- `selectNicer` from `Layout.ts`: keep `x` when the fitting predicate
accepts it, otherwise fall back to `y`. -/
def selectNicer {A : Type} (fits : FittingPredicate A) (lineIndent currentColumn : Int)
    (x y : SimpleDocStream A) : SimpleDocStream A :=
  if fits lineIndent currentColumn (initialIndentation y) x then x else y

/-- The indentation emitted for a `Line`: collapsed to `0` when the tail of
the produced stream is `SEmpty` or another `SLine` (from the `Line` branch
of `best` in `Layout.ts`). -/
def sLineIndent {A : Type} (i : Int) : SimpleDocStream A → Int
  | .SEmpty => 0
  | .SLine _ _ => 0
  | _ => i

/-- The `best` recursion of `layoutWadlerLeijen` from `Layout.ts`, with an
explicit fuel parameter: the TypeScript recursion re-enters through the
reactive producers, so it is not structurally terminating; `none` marks
running out of fuel. -/
def best {A : Type} (fits : FittingPredicate A) (pageWidth : PageWidth) :
    Nat → Int → Int → LayoutPipeline A → Option (SimpleDocStream A)
  | 0, _, _, _ => none
  | _ + 1, _, _, .Nil => some .SEmpty
  | fuel + 1, nl, cc, .UndoAnn ds =>
    (best fits pageWidth fuel nl cc ds).map .SAnnPop
  | _ + 1, _, _, .Cons _ .Fail _ => some .SFail
  | fuel + 1, nl, cc, .Cons _ .Empty ds => best fits pageWidth fuel nl cc ds
  | fuel + 1, nl, cc, .Cons _ (.Char c) ds =>
    (best fits pageWidth fuel nl (cc + 1) ds).map (.SChar c)
  | fuel + 1, nl, cc, .Cons _ (.Text t) ds =>
    (best fits pageWidth fuel nl (cc + (t.length : Int)) ds).map (.SText t)
  | fuel + 1, _, _, .Cons i .Line ds =>
    (best fits pageWidth fuel i i ds).map (fun x => .SLine (sLineIndent i x) x)
  | fuel + 1, nl, cc, .Cons i (.FlatAlt x _) ds =>
    best fits pageWidth fuel nl cc (.Cons i x ds)
  | fuel + 1, nl, cc, .Cons i (.Cat x y) ds =>
    best fits pageWidth fuel nl cc (.Cons i x (.Cons i y ds))
  | fuel + 1, nl, cc, .Cons i (.Nest j x) ds =>
    best fits pageWidth fuel nl cc (.Cons (i + j) x ds)
  | fuel + 1, nl, cc, .Cons i (.Union x y) ds =>
    match best fits pageWidth fuel nl cc (.Cons i x ds),
        best fits pageWidth fuel nl cc (.Cons i y ds) with
    | some sx, some sy => some (selectNicer fits nl cc sx sy)
    | _, _ => none
  | fuel + 1, nl, cc, .Cons i (.Column f) ds =>
    best fits pageWidth fuel nl cc (.Cons i (f cc) ds)
  | fuel + 1, nl, cc, .Cons i (.WithPageWidth f) ds =>
    best fits pageWidth fuel nl cc (.Cons i (f pageWidth) ds)
  | fuel + 1, nl, cc, .Cons i (.Nesting f) ds =>
    best fits pageWidth fuel nl cc (.Cons i (f i) ds)
  | fuel + 1, nl, cc, .Cons i (.Annotated a x) ds =>
    (best fits pageWidth fuel nl cc (.Cons i x (.UndoAnn ds))).map (.SAnnPush a)

/-- `layoutWadlerLeijen` from `Layout.ts`: run `best` from the initial call
`best(0, 0, Cons(0, doc, Nil))`. -/
def layoutWadlerLeijen {A : Type} (fits : FittingPredicate A) (pageWidth : PageWidth)
    (fuel : Nat) (doc : Doc A) : Option (SimpleDocStream A) :=
  best fits pageWidth fuel 0 0 (.Cons 0 doc .Nil)

/-- `failsOnFirstLine` from `Layout.ts`: true iff the first line of the
stream contains `SFail`. -/
def failsOnFirstLine {A : Type} : SimpleDocStream A → Bool
  | .SFail => true
  | .SEmpty => false
  | .SChar _ s => failsOnFirstLine s
  | .SText _ s => failsOnFirstLine s
  | .SLine _ _ => false
  | .SAnnPush _ s => failsOnFirstLine s
  | .SAnnPop s => failsOnFirstLine s

/-- `layoutUnbounded` from `Layout.ts`: `layoutWadlerLeijen` under
`Unbounded` with the fitting predicate accepting any stream that does not
fail on its first line. -/
def layoutUnbounded {A : Type} (fuel : Nat) (doc : Doc A) : Option (SimpleDocStream A) :=
  layoutWadlerLeijen (fun _ _ _ sds => !failsOnFirstLine sds) .Unbounded fuel doc

/-- The first-line fitting recursion of `layoutPretty` from `Layout.ts`:
negative width never fits; an `SLine` always fits. -/
def fitsPretty {A : Type} : Int → SimpleDocStream A → Bool
  | w, s =>
    if w < 0 then false
    else
      match s with
      | .SFail => false
      | .SEmpty => true
      | .SChar _ x => fitsPretty (w - 1) x
      | .SText t x => fitsPretty (w - (t.length : Int)) x
      | .SLine _ _ => true
      | .SAnnPush _ x => fitsPretty w x
      | .SAnnPop x => fitsPretty w x

/-- `layoutPretty` from `Layout.ts`: one-line lookahead fitting under
`AvailablePerLine`; delegates to `layoutUnbounded` under `Unbounded`. -/
def layoutPretty {A : Type} (pageWidth : PageWidth) (fuel : Nat) (doc : Doc A) :
    Option (SimpleDocStream A) :=
  match pageWidth with
  | .AvailablePerLine lw rfrac =>
    layoutWadlerLeijen
      (fun nl cc _ sds => fitsPretty (remainingWidth lw rfrac nl cc) sds)
      (.AvailablePerLine lw rfrac) fuel doc
  | .Unbounded => layoutUnbounded fuel doc

/-- `minNestingLevel` computed by the `layoutSmart` fitting predicate in
`Layout.ts`: the current column, or its minimum with the initial
indentation of the alternative when that is known. -/
def minNestingLevel (initialIndentY : Option Int) (currentColumn : Int) : Int :=
  match initialIndentY with
  | none => currentColumn
  | some i => min i currentColumn

/-- The `go` recursion of the `layoutSmart` fitting predicate as written in
the `Layout.ts` copy whose `SLine` branch continues with `lw - i`
(`SLine: (i, x) => (minNestingLevel < i ? pipe(x, go(lw - i)) : true)`). -/
def smartFitsGo {A : Type} (lw minNest : Int) : Int → SimpleDocStream A → Bool
  | w, s =>
    if w < 0 then false
    else
      match s with
      | .SFail => false
      | .SEmpty => true
      | .SChar _ x => smartFitsGo lw minNest (w - 1) x
      | .SText t x => smartFitsGo lw minNest (w - (t.length : Int)) x
      | .SLine i x => if minNest < i then smartFitsGo lw minNest (lw - i) x else true
      | .SAnnPush _ x => smartFitsGo lw minNest w x
      | .SAnnPop x => smartFitsGo lw minNest w x

/-- The `go` recursion of the `layoutSmart` fitting predicate as written in
the other `Layout.ts` copy, whose `SLine` branch continues with `i - lineWidth`
(`SLine: (i, x) => (minNestingLevel < i ? pipe(x, go(i - lineWidth)) : true)`). -/
def smartFitsGoFlipped {A : Type} (lw minNest : Int) : Int → SimpleDocStream A → Bool
  | w, s =>
    if w < 0 then false
    else
      match s with
      | .SFail => false
      | .SEmpty => true
      | .SChar _ x => smartFitsGoFlipped lw minNest (w - 1) x
      | .SText t x => smartFitsGoFlipped lw minNest (w - (t.length : Int)) x
      | .SLine i x => if minNest < i then smartFitsGoFlipped lw minNest (i - lw) x else true
      | .SAnnPush _ x => smartFitsGoFlipped lw minNest w x
      | .SAnnPop x => smartFitsGoFlipped lw minNest w x

/-- `layoutSmart` from `Layout.ts` (the copy whose `SLine` branch uses
`lw - i`): the fitting predicate keeps checking past line breaks whose
indentation exceeds the minimum nesting level. -/
def layoutSmart {A : Type} (pageWidth : PageWidth) (fuel : Nat) (doc : Doc A) :
    Option (SimpleDocStream A) :=
  match pageWidth with
  | .AvailablePerLine lw rfrac =>
    layoutWadlerLeijen
      (fun nl cc iy sds =>
        smartFitsGo lw (minNestingLevel iy cc) (remainingWidth lw rfrac nl cc) sds)
      (.AvailablePerLine lw rfrac) fuel doc
  | .Unbounded => layoutUnbounded fuel doc

/-- The `scan` recursion of `layoutCompact` from `Layout.ts`, with fuel for
the re-entry through reactive producers.  `FlatAlt` keeps its first branch,
`Union` its second, `Line` resets the column to `0` and emits indent `0`,
annotations are dropped. -/
def scanCompact {A B : Type} : Nat → Int → List (Doc A) → Option (SimpleDocStream B)
  | 0, _, _ => none
  | _ + 1, _, [] => some .SEmpty
  | _ + 1, _, .Fail :: _ => some .SFail
  | fuel + 1, col, .Empty :: ds => scanCompact fuel col ds
  | fuel + 1, col, .Char c :: ds => (scanCompact fuel (col + 1) ds).map (.SChar c)
  | fuel + 1, col, .Text t :: ds =>
    (scanCompact fuel (col + (t.length : Int)) ds).map (.SText t)
  | fuel + 1, col, .FlatAlt x _ :: ds => scanCompact fuel col (x :: ds)
  | fuel + 1, _, .Line :: ds => (scanCompact fuel 0 ds).map (.SLine 0)
  | fuel + 1, col, .Cat x y :: ds => scanCompact fuel col (x :: y :: ds)
  | fuel + 1, col, .Nest _ x :: ds => scanCompact fuel col (x :: ds)
  | fuel + 1, col, .Union _ y :: ds => scanCompact fuel col (y :: ds)
  | fuel + 1, col, .Column f :: ds => scanCompact fuel col (f col :: ds)
  | fuel + 1, col, .WithPageWidth f :: ds => scanCompact fuel col (f .Unbounded :: ds)
  | fuel + 1, col, .Nesting f :: ds => scanCompact fuel col (f 0 :: ds)
  | fuel + 1, col, .Annotated _ x :: ds => scanCompact fuel col (x :: ds)

/-- `layoutCompact` from `Layout.ts`: run `scan` at column `0` on the
singleton work list. -/
def layoutCompact {A B : Type} (fuel : Nat) (doc : Doc A) : Option (SimpleDocStream B) :=
  scanCompact fuel 0 [doc]

/-- The run of spaces appended after a newline by the renderer:
`RA.replicate(i, ' ')` is empty for non-positive `i`. -/
def spacesText (i : Int) : String :=
  String.mk (List.replicate i.toNat ' ')

/-- `renderS` from `Render.ts`.  The `SFail` case throws in the source
(`absurd`); the embedding returns `none` there and propagates it. -/
def renderS {A : Type} : SimpleDocStream A → Option String
  | .SFail => none
  | .SEmpty => some ""
  | .SChar c x => (renderS x).map (fun r => c ++ r)
  | .SText t x => (renderS x).map (fun r => t ++ r)
  | .SLine i x => (renderS x).map (fun r => "\n" ++ spacesText i ++ r)
  | .SAnnPush _ x => renderS x
  | .SAnnPop x => renderS x

/-- `lineBreak` from `Doc.ts`: like `line`, but behaves like `empty` when
the break is undone by `group`. -/
def lineBreak {A : Type} : Doc A := .FlatAlt .Line .Empty

/-- `appendWithLineBreak` from `Doc.ts`. -/
def appendWithLineBreak {A : Type} (x y : Doc A) : Doc A := .Cat x (.Cat lineBreak y)

/-- `concatWith` from `Doc.ts`: fp-ts `foldRight` splits off the last
element and `reduceRight` folds the initial segment onto it, which is the
right fold below with the last element as the seed. -/
def concatWith {A : Type} (f : Doc A → Doc A → Doc A) : List (Doc A) → Doc A
  | [] => .Empty
  | [d] => d
  | d :: ds => f d (concatWith f ds)

/-- `vcat` from `Doc.ts`. -/
def vcat {A : Type} (docs : List (Doc A)) : Doc A := concatWith appendWithLineBreak docs

/-- `cat` from `Doc.ts`: `vcat` followed by `group`. -/
def cat {A : Type} (docs : List (Doc A)) : Doc A := group (vcat docs)

/-- `encloseSep` from `Doc.ts`: the n-ary case zips `left` followed by
`n - 1` separators onto the documents with `Cat` and runs `cat`. -/
def encloseSep {A : Type} (left right sep : Doc A) (docs : List (Doc A)) : Doc A :=
  match docs with
  | [] => .Cat left right
  | [d] => .Cat left (.Cat d right)
  | _ =>
    .Cat (cat (List.zipWith .Cat (left :: List.replicate (docs.length - 1) sep) docs)) right

/-- `lbracket` from `Doc.ts`. -/
def lbracket {A : Type} : Doc A := .Char "["

/-- `rbracket` from `Doc.ts`. -/
def rbracket {A : Type} : Doc A := .Char "]"

/-- `lparen` from `Doc.ts`. -/
def lparen {A : Type} : Doc A := .Char "("

/-- `rparen` from `Doc.ts`. -/
def rparen {A : Type} : Doc A := .Char ")"

/-- `list` from `Doc.ts`: note the source passes the two-character strings
`"[ "`, `" ]"` and `", "` to the `Char` constructor. -/
def list {A : Type} (docs : List (Doc A)) : Doc A :=
  group (encloseSep (.FlatAlt (.Char "[ ") lbracket) (.FlatAlt (.Char " ]") rbracket)
    (.Char ", ") docs)

/-- `tupled` from `Doc.ts`: like `list` with parentheses; the source passes
the two-character strings `"( "`, `" )"` and `", "` to `Char`. -/
def tupled {A : Type} (docs : List (Doc A)) : Doc A :=
  group (encloseSep (.FlatAlt (.Char "( ") lparen) (.FlatAlt (.Char " )") rparen)
    (.Char ", ") docs)

/-- Checker for the §3.2 constructor invariants on the `Char` and `Text`
nodes reachable without invoking a reactive producer: a `Char` holds
exactly one character and not a newline, a `Text` is at least two
characters long and newline-free. -/
def charTextOk {A : Type} : Doc A → Bool
  | .Fail => true
  | .Empty => true
  | .Char c => c.length == 1 && c != "\n"
  | .Text t => decide (2 ≤ t.length) && !(t.contains '\n')
  | .Line => true
  | .FlatAlt x y => charTextOk x && charTextOk y
  | .Cat x y => charTextOk x && charTextOk y
  | .Nest _ x => charTextOk x
  | .Union x y => charTextOk x && charTextOk y
  | .Column _ => true
  | .WithPageWidth _ => true
  | .Nesting _ => true
  | .Annotated _ x => charTextOk x

/-- `group` as described by §4.4 of the specification: three cases, on
`FlatAlt`, on `Union`, and the default consulting `changesUponFlattening`
of the whole document. -/
def groupSpec {A : Type} (d : Doc A) : Doc A :=
  match d with
  | .FlatAlt a b =>
    match changesUponFlattening b with
    | .Flattened b_ => .Union b_ a
    | .AlreadyFlat => .Union b a
    | .NeverFlat => a
  | .Union x y => .Union x y
  | _ =>
    match changesUponFlattening d with
    | .Flattened d_ => .Union d_ d
    | .AlreadyFlat => d
    | .NeverFlat => d

/-- Number of `UndoAnn` markers in a layout pipeline: the number of
`SAnnPop` nodes the `best` recursion still owes to the stream. -/
def pipeUndo {A : Type} : LayoutPipeline A → Nat
  | .Nil => 0
  | .Cons _ _ ds => pipeUndo ds
  | .UndoAnn ds => pipeUndo ds + 1

/-- Annotation balance with `k` open `SAnnPush` markers, in the sense of
the specification's invariant: every `SAnnPop` matches an earlier unmatched
`SAnnPush`, and a chain terminating in `SEmpty` or `SFail` has no
unclosed `SAnnPush`. -/
def annBalancedClaim {A : Type} : Nat → SimpleDocStream A → Bool
  | k, .SFail => k == 0
  | k, .SEmpty => k == 0
  | k, .SChar _ x => annBalancedClaim k x
  | k, .SText _ x => annBalancedClaim k x
  | k, .SLine _ x => annBalancedClaim k x
  | k, .SAnnPush _ x => annBalancedClaim (k + 1) x
  | k, .SAnnPop x =>
    match k with
    | 0 => false
    | k_ + 1 => annBalancedClaim k_ x

/-- Annotation balance with `k` open `SAnnPush` markers, weakened at
`SFail`: every `SAnnPop` matches an earlier unmatched `SAnnPush`, a chain
terminating in `SEmpty` has no unclosed `SAnnPush`, and a chain absorbed by
`SFail` may leave pushes open. -/
def annBalancedOk {A : Type} : Nat → SimpleDocStream A → Bool
  | _, .SFail => true
  | k, .SEmpty => k == 0
  | k, .SChar _ x => annBalancedOk k x
  | k, .SText _ x => annBalancedOk k x
  | k, .SLine _ x => annBalancedOk k x
  | k, .SAnnPush _ x => annBalancedOk (k + 1) x
  | k, .SAnnPop x =>
    match k with
    | 0 => false
    | k_ + 1 => annBalancedOk k_ x

/-- Checker for the `layoutCompact` output invariant: every `SLine` has
indentation `0` and there are no annotation markers. -/
def compactOk {A : Type} : SimpleDocStream A → Bool
  | .SFail => true
  | .SEmpty => true
  | .SChar _ x => compactOk x
  | .SText _ x => compactOk x
  | .SLine i x => i == 0 && compactOk x
  | .SAnnPush _ _ => false
  | .SAnnPop _ => false

/-- Whether the successor chain of a stream contains an `SFail` node. -/
def containsSFail {A : Type} : SimpleDocStream A → Bool
  | .SFail => true
  | .SEmpty => false
  | .SChar _ x => containsSFail x
  | .SText _ x => containsSFail x
  | .SLine _ x => containsSFail x
  | .SAnnPush _ x => containsSFail x
  | .SAnnPop x => containsSFail x

/-- The rendering described by the specification for `SFail`-free streams:
concatenate each `SChar`'s character and each `SText`'s text, a newline
followed by `i` spaces for `SLine(i)`, and nothing for the annotation
markers. -/
def renderSpecString {A : Type} : SimpleDocStream A → String
  | .SFail => ""
  | .SEmpty => ""
  | .SChar c x => c ++ renderSpecString x
  | .SText t x => t ++ renderSpecString x
  | .SLine i x => "\n" ++ spacesText i ++ renderSpecString x
  | .SAnnPush _ x => renderSpecString x
  | .SAnnPop x => renderSpecString x

/-- Helper: a document whose flatten analysis answers `AlreadyFlat` is left
unchanged by `flatten`. -/
theorem alreadyFlat_flatten_eq {A : Type} :
    ∀ d : Doc A, changesUponFlattening d = .AlreadyFlat → flatten d = d := by
  intro d
  induction d with
  | Fail => intro _; rfl
  | Empty => intro _; rfl
  | Char c => intro _; rfl
  | Text t => intro _; rfl
  | Line => intro h; simp [changesUponFlattening] at h
  | FlatAlt x y ihx ihy => intro h; simp [changesUponFlattening] at h
  | Cat x y ihx ihy =>
    intro h
    simp only [changesUponFlattening] at h
    cases hx : changesUponFlattening x <;> rw [hx] at h <;>
      cases hy : changesUponFlattening y <;> rw [hy] at h <;> simp at h
    simp [flatten, ihx hx, ihy hy]
  | Nest i x ih =>
    intro h
    simp only [changesUponFlattening] at h
    cases hx : changesUponFlattening x <;> rw [hx] at h <;> simp [FlattenResult.map] at h
    simp [flatten, ih hx]
  | Union x y ihx ihy => intro h; simp [changesUponFlattening] at h
  | Column f ih => intro h; simp [changesUponFlattening] at h
  | WithPageWidth f ih => intro h; simp [changesUponFlattening] at h
  | Nesting f ih => intro h; simp [changesUponFlattening] at h
  | Annotated a x ih =>
    intro h
    simp only [changesUponFlattening] at h
    cases hx : changesUponFlattening x <;> rw [hx] at h <;> simp [FlattenResult.map] at h
    simp [flatten, ih hx]

/-- Helper: any stream `best` produces from a pipeline with `pipeUndo p`
pending `UndoAnn` markers is annotation-balanced at level `pipeUndo p`
(in the weak sense that a chain absorbed by `SFail` may leave pushes
open). -/
theorem best_annBalanced {A : Type} (fits : FittingPredicate A) (pw : PageWidth) :
    ∀ (fuel : Nat) (nl cc : Int) (p : LayoutPipeline A) (s : SimpleDocStream A),
      best fits pw fuel nl cc p = some s → annBalancedOk (pipeUndo p) s = true := by
  intro fuel
  induction fuel with
  | zero => intro nl cc p s h; simp [best] at h
  | succ n ih =>
    intro nl cc p s h
    cases p with
    | Nil =>
      simp only [best, Option.some.injEq] at h
      subst h; rfl
    | UndoAnn ds =>
      simp only [best] at h
      obtain ⟨t, ht, rfl⟩ := Option.map_eq_some'.mp h
      simpa [pipeUndo, annBalancedOk] using ih nl cc ds t ht
    | Cons i d ds =>
      cases d with
      | Fail =>
        simp only [best, Option.some.injEq] at h
        subst h; rfl
      | Empty =>
        simp only [best] at h
        simpa [pipeUndo] using ih nl cc ds s h
      | Char c =>
        simp only [best] at h
        obtain ⟨t, ht, rfl⟩ := Option.map_eq_some'.mp h
        simpa [pipeUndo, annBalancedOk] using ih nl (cc + 1) ds t ht
      | Text t0 =>
        simp only [best] at h
        obtain ⟨t, ht, rfl⟩ := Option.map_eq_some'.mp h
        simpa [pipeUndo, annBalancedOk] using ih nl (cc + (t0.length : Int)) ds t ht
      | Line =>
        simp only [best] at h
        obtain ⟨t, ht, rfl⟩ := Option.map_eq_some'.mp h
        simpa [pipeUndo, annBalancedOk] using ih i i ds t ht
      | FlatAlt x y =>
        simp only [best] at h
        simpa [pipeUndo] using ih nl cc (.Cons i x ds) s h
      | Cat x y =>
        simp only [best] at h
        simpa [pipeUndo] using ih nl cc (.Cons i x (.Cons i y ds)) s h
      | Nest j x =>
        simp only [best] at h
        simpa [pipeUndo] using ih nl cc (.Cons (i + j) x ds) s h
      | Union x y =>
        simp only [best] at h
        cases hx : best fits pw n nl cc (.Cons i x ds) <;> rw [hx] at h
        · simp at h
        · cases hy : best fits pw n nl cc (.Cons i y ds) <;> rw [hy] at h
          · simp at h
          · simp only [Option.some.injEq] at h
            subst h
            have bx := ih nl cc (.Cons i x ds) _ hx
            have hby := ih nl cc (.Cons i y ds) _ hy
            simp only [pipeUndo] at bx hby ⊢
            unfold selectNicer
            split
            · exact bx
            · exact hby
      | Column f =>
        simp only [best] at h
        simpa [pipeUndo] using ih nl cc (.Cons i (f cc) ds) s h
      | WithPageWidth f =>
        simp only [best] at h
        simpa [pipeUndo] using ih nl cc (.Cons i (f pw) ds) s h
      | Nesting f =>
        simp only [best] at h
        simpa [pipeUndo] using ih nl cc (.Cons i (f i) ds) s h
      | Annotated a x =>
        simp only [best] at h
        obtain ⟨t, ht, rfl⟩ := Option.map_eq_some'.mp h
        simpa [pipeUndo, annBalancedOk] using ih nl cc (.Cons i x (.UndoAnn ds)) t ht

/-- Helper: any stream `scanCompact` produces has only zero-indentation
`SLine` nodes and no annotation markers. -/
theorem scanCompact_compactOk {A B : Type} :
    ∀ (fuel : Nat) (col : Int) (docs : List (Doc A)) (s : SimpleDocStream B),
      scanCompact fuel col docs = some s → compactOk s = true := by
  intro fuel
  induction fuel with
  | zero => intro col docs s h; simp [scanCompact] at h
  | succ n ih =>
    intro col docs s h
    cases docs with
    | nil =>
      simp only [scanCompact, Option.some.injEq] at h
      subst h; rfl
    | cons d ds =>
      cases d with
      | Fail =>
        simp only [scanCompact, Option.some.injEq] at h
        subst h; rfl
      | Empty =>
        simp only [scanCompact] at h
        exact ih col ds s h
      | Char c =>
        simp only [scanCompact] at h
        obtain ⟨t, ht, rfl⟩ := Option.map_eq_some'.mp h
        simpa [compactOk] using ih (col + 1) ds t ht
      | Text t0 =>
        simp only [scanCompact] at h
        obtain ⟨t, ht, rfl⟩ := Option.map_eq_some'.mp h
        simpa [compactOk] using ih (col + (t0.length : Int)) ds t ht
      | FlatAlt x y =>
        simp only [scanCompact] at h
        exact ih col (x :: ds) s h
      | Line =>
        simp only [scanCompact] at h
        obtain ⟨t, ht, rfl⟩ := Option.map_eq_some'.mp h
        simpa [compactOk] using ih 0 ds t ht
      | Cat x y =>
        simp only [scanCompact] at h
        exact ih col (x :: y :: ds) s h
      | Nest j x =>
        simp only [scanCompact] at h
        exact ih col (x :: ds) s h
      | Union x y =>
        simp only [scanCompact] at h
        exact ih col (y :: ds) s h
      | Column f =>
        simp only [scanCompact] at h
        exact ih col (f col :: ds) s h
      | WithPageWidth f =>
        simp only [scanCompact] at h
        exact ih col (f .Unbounded :: ds) s h
      | Nesting f =>
        simp only [scanCompact] at h
        exact ih col (f 0 :: ds) s h
      | Annotated a x =>
        simp only [scanCompact] at h
        exact ih col (x :: ds) s h

/-- Helper: a compact stream (no annotation markers) is annotation-balanced
at level `0`. -/
theorem compactOk_annBalanced {A : Type} :
    ∀ s : SimpleDocStream A, compactOk s = true → annBalancedOk 0 s = true := by
  intro s
  induction s with
  | SFail => intro _; rfl
  | SEmpty => intro _; rfl
  | SChar c x ih =>
    intro h
    simp only [compactOk] at h
    simpa [annBalancedOk] using ih h
  | SText t x ih =>
    intro h
    simp only [compactOk] at h
    simpa [annBalancedOk] using ih h
  | SLine i x ih =>
    intro h
    simp only [compactOk, Bool.and_eq_true] at h
    simpa [annBalancedOk] using ih h.2
  | SAnnPush a x ih => intro h; simp [compactOk] at h
  | SAnnPop x ih => intro h; simp [compactOk] at h

/-- Claim C1: the repository contains two copies of `layoutSmart`; in the
fitness recursion under `AvailablePerLine(10, ·)`, on the node
`SLine(2, SEmpty)` reached with `minNestingLevel = 0 < 2` and width `5`,
the copy continuing with `i - lineWidth` recurses at width `2 - 10 = -8`
and rejects the stream, while the copy continuing with `lineWidth - i`
recurses at width `10 - 2 = 8` and accepts it, so the claim that the
recursion never continues with width `i - lw` fails on the former copy. -/
theorem smartFits_sline_sign_divergence :
    smartFitsGoFlipped 10 0 5 (SimpleDocStream.SLine 2 .SEmpty : SimpleDocStream Nat) = false ∧
    smartFitsGo 10 0 5 (SimpleDocStream.SLine 2 .SEmpty : SimpleDocStream Nat) = true :=
  ⟨rfl, rfl⟩

/-- Claim C2: `changesUponFlattening` on a `Nesting` producer returns
`Flattened` of a `Column` node (not a `Nesting` node) wrapping the producer
composed with `flatten`, contradicting the claimed
`Flattened(Nesting(flatten ∘ f))`. -/
theorem changesUponFlattening_nesting_wraps_column :
    changesUponFlattening (Doc.Nesting (fun lvl => Doc.Nest lvl (Doc.Char "x" : Doc Nat)))
      = .Flattened (.Column (fun lvl => flatten (Doc.Nest lvl (Doc.Char "x")))) ∧
    ∀ g : Int → Doc Nat,
      changesUponFlattening (Doc.Nesting (fun lvl => Doc.Nest lvl (Doc.Char "x" : Doc Nat)))
        ≠ .Flattened (.Nesting g) := by
  refine ⟨rfl, ?_⟩
  intro g h
  exact Doc.noConfusion (FlattenResult.Flattened.inj h)

/-- Claim C4: `group` agrees with the specification's three-case
description (`FlatAlt` consulting the flatten analysis of its second
component, `Union` unchanged, otherwise consulting the flatten analysis of
the document itself) on every document. -/
theorem group_matches_spec {A : Type} (d : Doc A) : group d = groupSpec d := by
  cases d <;> rfl

/-- Claim C5, counterexample: `layoutUnbounded` on `Annotated(0, Fail)`
produces the stream `SAnnPush(0, SFail)`, whose `SAnnPush` is left unclosed
when the chain terminates, so the claimed balance of every produced stream
fails as stated. -/
theorem layout_annBalance_claim_counterexample :
    layoutUnbounded 3 (Doc.Annotated (0 : Nat) .Fail) = some (.SAnnPush 0 .SFail) ∧
    annBalancedClaim 0 (SimpleDocStream.SAnnPush (0 : Nat) .SFail) = false :=
  ⟨rfl, rfl⟩

/-- Claim C5, amended: every stream produced by `layoutUnbounded`,
`layoutPretty`, `layoutSmart` or `layoutCompact` is annotation-balanced in
the weak sense: every `SAnnPop` matches an earlier unmatched `SAnnPush`, a
chain terminating in `SEmpty` has no unclosed `SAnnPush`, and a chain
absorbed by `SFail` may leave pushes open. -/
theorem layout_annBalanced_amended {A : Type} (fuel : Nat) (pw : PageWidth) (doc : Doc A)
    (s : SimpleDocStream A) :
    (layoutUnbounded fuel doc = some s → annBalancedOk 0 s = true) ∧
    (layoutPretty pw fuel doc = some s → annBalancedOk 0 s = true) ∧
    (layoutSmart pw fuel doc = some s → annBalancedOk 0 s = true) ∧
    (layoutCompact fuel doc = some s → annBalancedOk 0 s = true) := by
  refine ⟨?_, ?_, ?_, ?_⟩
  · intro h
    exact best_annBalanced _ _ fuel 0 0 (.Cons 0 doc .Nil) s h
  · intro h
    cases pw with
    | AvailablePerLine lw rf =>
      simp only [layoutPretty] at h
      exact best_annBalanced _ _ fuel 0 0 (.Cons 0 doc .Nil) s h
    | Unbounded =>
      simp only [layoutPretty] at h
      exact best_annBalanced _ _ fuel 0 0 (.Cons 0 doc .Nil) s h
  · intro h
    cases pw with
    | AvailablePerLine lw rf =>
      simp only [layoutSmart] at h
      exact best_annBalanced _ _ fuel 0 0 (.Cons 0 doc .Nil) s h
    | Unbounded =>
      simp only [layoutSmart] at h
      exact best_annBalanced _ _ fuel 0 0 (.Cons 0 doc .Nil) s h
  · intro h
    exact compactOk_annBalanced s (scanCompact_compactOk fuel 0 [doc] s h)

/-- Witness for the amended C5 theorem at `Annotated(0, Char "a")` under
the default page width, discharging each of the four layout hypotheses by
computation. -/
theorem layout_annBalanced_amended_witness :
    annBalancedOk 0 (SimpleDocStream.SAnnPush (0 : Nat) (.SChar "a" (.SAnnPop .SEmpty))) = true ∧
    annBalancedOk 0 (SimpleDocStream.SAnnPush (0 : Nat) (.SChar "a" (.SAnnPop .SEmpty))) = true ∧
    annBalancedOk 0 (SimpleDocStream.SAnnPush (0 : Nat) (.SChar "a" (.SAnnPop .SEmpty))) = true ∧
    annBalancedOk 0 (SimpleDocStream.SChar "a" .SEmpty : SimpleDocStream Nat) = true :=
  ⟨(layout_annBalanced_amended 8 defaultPageWidth (Doc.Annotated 0 (.Char "a"))
      (.SAnnPush 0 (.SChar "a" (.SAnnPop .SEmpty)))).1 rfl,
   (layout_annBalanced_amended 8 defaultPageWidth (Doc.Annotated 0 (.Char "a"))
      (.SAnnPush 0 (.SChar "a" (.SAnnPop .SEmpty)))).2.1 rfl,
   (layout_annBalanced_amended 8 defaultPageWidth (Doc.Annotated 0 (.Char "a"))
      (.SAnnPush 0 (.SChar "a" (.SAnnPop .SEmpty)))).2.2.1 rfl,
   (layout_annBalanced_amended 8 defaultPageWidth (Doc.Annotated 0 (.Char "a"))
      (.SChar "a" .SEmpty)).2.2.2 rfl⟩

/-- Claim C6: if the flatten analysis of a document answers `AlreadyFlat`,
then `layoutUnbounded` produces identical streams on the document and on
its flattened form. -/
theorem layoutUnbounded_alreadyFlat_eq {A : Type} (fuel : Nat) (d : Doc A)
    (h : changesUponFlattening d = .AlreadyFlat) :
    layoutUnbounded fuel d = layoutUnbounded fuel (flatten d) := by
  rw [alreadyFlat_flatten_eq d h]

/-- Witness for C6 at `Cat(Char "a", Text "bc")`, whose flatten analysis
computes to `AlreadyFlat`. -/
theorem layoutUnbounded_alreadyFlat_eq_witness :
    changesUponFlattening (Doc.Cat (.Char "a") (.Text "bc") : Doc Nat) = .AlreadyFlat ∧
    layoutUnbounded 6 (Doc.Cat (.Char "a") (.Text "bc") : Doc Nat)
      = layoutUnbounded 6 (flatten (Doc.Cat (.Char "a") (.Text "bc"))) :=
  ⟨rfl, layoutUnbounded_alreadyFlat_eq 6 _ rfl⟩

/-- Claim C7: every stream `layoutCompact` produces contains only `SLine`
nodes of indentation `0` and no `SAnnPush`/`SAnnPop` nodes. -/
theorem layoutCompact_zero_indent_no_ann {A B : Type} (fuel : Nat) (doc : Doc A)
    (s : SimpleDocStream B) (h : layoutCompact fuel doc = some s) :
    compactOk s = true :=
  scanCompact_compactOk fuel 0 [doc] s h

/-- Witness for C7 at `Annotated(0, Cat(Char "a", Cat(Line, Text "bc")))`,
whose compact layout computes to `SChar "a" (SLine 0 (SText "bc" SEmpty))`. -/
theorem layoutCompact_zero_indent_no_ann_witness :
    compactOk (SimpleDocStream.SChar "a" (.SLine 0 (.SText "bc" .SEmpty))
      : SimpleDocStream Nat) = true :=
  layoutCompact_zero_indent_no_ann 10
    (Doc.Annotated (0 : Nat) (.Cat (.Char "a") (.Cat .Line (.Text "bc"))))
    (.SChar "a" (.SLine 0 (.SText "bc" .SEmpty))) rfl

/-- Claim C8: `list` builds `Char` nodes holding the two-character strings
`"[ "`, `" ]"` and `", "`, so the §3.2 invariant that every `Char` node of
the derived combinators holds exactly one character fails already on
`list []`. -/
theorem list_char_invariant_violation :
    charTextOk (list ([] : List (Doc Nat))) = false := rfl

/-- Claim C9: `flatten` is idempotent — flattening a flattened document is
the identity, structurally. -/
theorem flatten_idempotent {A : Type} (d : Doc A) : flatten (flatten d) = flatten d := by
  induction d with
  | Fail => rfl
  | Empty => rfl
  | Char c => rfl
  | Text t => rfl
  | Line => rfl
  | FlatAlt x y ihx ihy => simpa [flatten] using ihy
  | Cat x y ihx ihy => simp [flatten, ihx, ihy]
  | Nest i x ih => simp [flatten, ih]
  | Union x y ihx ihy => simpa [flatten] using ihx
  | Column f ih =>
    simp only [flatten]
    exact congrArg _ (funext fun n => ih n)
  | WithPageWidth f ih =>
    simp only [flatten]
    exact congrArg _ (funext fun w => ih w)
  | Nesting f ih =>
    simp only [flatten]
    exact congrArg _ (funext fun n => ih n)
  | Annotated a x ih => simp [flatten, ih]

/-- Claim C10: `renderS` fails exactly on streams whose successor chain
contains `SFail`, and on `SFail`-free streams it returns the left-to-right
concatenation of each `SChar`'s character, each `SText`'s text, a newline
followed by `i` spaces for each `SLine(i)`, and nothing for the annotation
markers. -/
theorem renderS_sfail_iff_spec {A : Type} (s : SimpleDocStream A) :
    (renderS s = none ↔ containsSFail s = true) ∧
    (containsSFail s = false → renderS s = some (renderSpecString s)) := by
  induction s with
  | SFail => exact ⟨by simp [renderS, containsSFail], by simp [containsSFail]⟩
  | SEmpty => exact ⟨by simp [renderS, containsSFail], fun _ => rfl⟩
  | SChar c x ih =>
    constructor
    · simpa [renderS, containsSFail, Option.map_eq_none'] using ih.1
    · intro h
      simp only [containsSFail] at h
      simp [renderS, renderSpecString, ih.2 h]
  | SText t x ih =>
    constructor
    · simpa [renderS, containsSFail, Option.map_eq_none'] using ih.1
    · intro h
      simp only [containsSFail] at h
      simp [renderS, renderSpecString, ih.2 h]
  | SLine i x ih =>
    constructor
    · simpa [renderS, containsSFail, Option.map_eq_none'] using ih.1
    · intro h
      simp only [containsSFail] at h
      simp [renderS, renderSpecString, ih.2 h]
  | SAnnPush a x ih =>
    constructor
    · simpa [renderS, containsSFail] using ih.1
    · intro h
      simp only [containsSFail] at h
      simp [renderS, renderSpecString, ih.2 h]
  | SAnnPop x ih =>
    constructor
    · simpa [renderS, containsSFail] using ih.1
    · intro h
      simp only [containsSFail] at h
      simp [renderS, renderSpecString, ih.2 h]

/-- Witness for C10 at `SChar "a" (SLine 2 (SAnnPush 0 (SAnnPop SEmpty)))`:
the stream is `SFail`-free and renders to `"a"`, a newline, and two
spaces. -/
theorem renderS_sfail_iff_spec_witness :
    renderS (SimpleDocStream.SChar "a" (.SLine 2 (.SAnnPush (0 : Nat) (.SAnnPop .SEmpty))))
      = some "a\n  " := by
  rw [(renderS_sfail_iff_spec
      (SimpleDocStream.SChar "a" (.SLine 2 (.SAnnPush (0 : Nat) (.SAnnPop .SEmpty))))).2 rfl]
  rfl

end PPrint

